import Mathlib

/-!
Verification development for the Huawei SUN2000 Modbus gateway driver
(src/iot_driver_copilot/huawei_sun_2000_solar_inverter/driver.py).

The Python source is shallowly embedded: 16-bit register words are `Nat`
(assumed below 2^16 where the source would raise struct.error outside that
range), Python ints are `Int`, Python floats are modelled as exact rationals,
strings produced by codecs are lists of Unicode code points, raised
HTTP exceptions are `Except.error` carrying the HTTP status code, and the
Modbus transport is an explicit oracle argument.
-/

/-- Interpret a 32-bit bit pattern as a twos-complement signed integer.
Models the effect of struct.unpack of a big-endian int32 applied to four
bytes whose big-endian value is `n` (assumed below 2^32). -/
def toSigned32 (n : Nat) : Int :=
  if n < 2147483648 then (n : Int) else (n : Int) - 4294967296

/-- Embeds parse_int32_registers (driver.py lines 82-86): returns None for
fewer than two registers, otherwise packs registers[0] (high word) and
registers[1] (low word) big-endian and reads the result as a signed int32.
Registers beyond the first two are ignored, as in the source. -/
def parse_int32_registers : List Nat → Option Int
  | r0 :: r1 :: _ => some (toSigned32 (r0 * 65536 + r1))
  | _ => none

/-- Embeds build_int32_registers (driver.py lines 88-91): packs a signed
32-bit integer big-endian (struct.pack of int32, defined on
[-2^31, 2^31)) and splits the four bytes into two 16-bit words. -/
def build_int32_registers (value : Int) : List Nat :=
  [(value % 4294967296).toNat / 65536, (value % 4294967296).toNat % 65536]

/-- Outcome of one Modbus transport call as observed by the driver: either
a register list (resp.registers) or an error response (resp.isError()). -/
inductive ReadOutcome where
  | success (registers : List Nat)
  | failure
deriving DecidableEq

/-- Embeds ModbusTCPClient.read_holding_registers (driver.py lines
113-119). The transport is an oracle indexed by attempt number, so that a
retrying implementation would be able to consult indices above zero; the
source performs exactly one call (index 0) and raises HTTPException 502
when the response is an error. The address and count arguments and the
lazy reconnect step are omitted: they are constant over, and irrelevant
to, the attempt count. The second component is the number of transport
attempts performed. -/
def read_holding_registers (transport : Nat → ReadOutcome) : Except Nat (List Nat) × Nat :=
  match transport 0 with
  | ReadOutcome.success regs => (Except.ok regs, 1)
  | ReadOutcome.failure => (Except.error 502, 1)

/-- A transport whose attempt 0 fails and whose every later attempt would
succeed; a client retrying at least once would succeed on it. -/
def failThenGood : Nat → ReadOutcome :=
  fun attempt => if attempt = 0 then ReadOutcome.failure else ReadOutcome.success [1, 2]

/-- A transport whose every attempt fails. -/
def allFailTransport : Nat → ReadOutcome := fun _ => ReadOutcome.failure

/-- The two wire-distinct Modbus write operations (separate function
codes): write single register, and write multiple registers. -/
inductive WireWrite where
  | single (address : Nat) (value : Nat)
  | multiple (address : Nat) (values : List Nat)
deriving DecidableEq

/-- Embeds the dispatch in ModbusTCPClient.write_registers (driver.py
lines 124-127): a one-element value list goes to client.write_register
with values[0] (single-register write), any other list goes to
client.write_registers (multi-register write). -/
def write_registers_op : Nat → List Nat → WireWrite
  | address, [v] => WireWrite.single address v
  | address, values => WireWrite.multiple address values

deriving instance DecidableEq for Except

/-- Round a rational to the nearest integer, ties to even. Models the
Python builtin round applied to a numeric value, with floats modelled as
exact rationals. The fractional part of x is (x.num - x.floor * x.den) /
x.den, so the integer comparisons below compare it with one half. -/
def roundHalfEven (x : ℚ) : ℤ :=
  if 2 * (x.num - x.floor * (x.den : ℤ)) < (x.den : ℤ) then x.floor
  else if (x.den : ℤ) < 2 * (x.num - x.floor * (x.den : ℤ)) then x.floor + 1
  else if x.floor % 2 = 0 then x.floor else x.floor + 1

/-- Round a rational to 3 decimal places, ties to even: models the Python
call round(x, 3) on the scaled telemetry value. -/
def round3 (x : ℚ) : ℚ :=
  (roundHalfEven (x * 1000) : ℚ) / 1000

/-- One entry of the TELEMETRY_MAP or CONTROL_MAP dictionaries
(driver.py lines 41-68): register address, register count and scale.
Every entry of both maps has type int32 and the type and unit strings are
never consulted by the telemetry or control code paths, so they are not
carried. The scale (a Python int or float literal) is an exact rational. -/
structure RegSpec where
  address : Nat
  count : Nat
  scale : ℚ
deriving DecidableEq

/-- Embeds the TELEMETRY_MAP dictionary (driver.py lines 41-54), in
source order. -/
def TELEMETRY_MAP : List (String × RegSpec) :=
  [("active_power", ⟨32080, 2, 1 / 100⟩),
   ("reactive_power", ⟨32082, 2, 1 / 100⟩),
   ("voltage_L1", ⟨32066, 2, 1 / 100⟩),
   ("voltage_L2", ⟨32067, 2, 1 / 100⟩),
   ("voltage_L3", ⟨32068, 2, 1 / 100⟩),
   ("current_L1", ⟨32069, 2, 1 / 100⟩),
   ("current_L2", ⟨32070, 2, 1 / 100⟩),
   ("current_L3", ⟨32071, 2, 1 / 100⟩),
   ("power_factor", ⟨32084, 2, 1 / 1000⟩),
   ("frequency", ⟨32085, 2, 1 / 100⟩),
   ("total_energy", ⟨32106, 2, 1⟩),
   ("alarm_codes", ⟨32090, 2, 1⟩)]

/-- Embeds the CONTROL_MAP dictionary (driver.py lines 63-68). -/
def CONTROL_MAP : List (String × RegSpec) :=
  [("active_power_limit", ⟨42000, 2, 1⟩),
   ("reactive_power_limit", ⟨42002, 2, 1⟩)]

/-- The per-field value computation of get_telemetry (driver.py lines
170-172): decode the registers as int32; when that yields a value,
multiply by the scale of the field and round to 3 decimal places;
otherwise keep None. -/
def fieldValue (spec : RegSpec) (registers : List Nat) : Option ℚ :=
  (parse_int32_registers registers).map fun v : ℤ => round3 ((v : ℚ) * spec.scale)

/-- Python dict assignment d[k] = v on an insertion-ordered association
list: replace the value in place when the key is present, append the pair
otherwise. -/
def dictInsert {α : Type} (d : List (String × α)) (k : String) (v : α) : List (String × α) :=
  if d.any fun p => p.1 == k then d.map fun p => if p.1 == k then (k, v) else p
  else d ++ [(k, v)]

/-- Whether an association list (a Python dict) has an entry for key k. -/
def hasKey {α : Type} (d : List (String × α)) (k : String) : Prop :=
  k ∈ d.map Prod.fst

instance {α : Type} (d : List (String × α)) (k : String) : Decidable (hasKey d k) := by
  unfold hasKey
  infer_instance

/-- The metrics loop of get_telemetry (driver.py lines 165-173): unknown
names are skipped, a transport read error raises out of the loop and is
re-raised by the surrounding handler as HTTP 500, and a successful read
stores the decoded, scaled, rounded value under the metric name. The
transport oracle maps (address, count) to the outcome of the read. -/
def telemetryLoop (oracle : Nat → Nat → ReadOutcome) :
    List String → List (String × Option ℚ) → Except Nat (List (String × Option ℚ))
  | [], acc => Except.ok acc
  | m :: rest, acc =>
    match TELEMETRY_MAP.lookup m with
    | none => telemetryLoop oracle rest acc
    | some spec =>
      match oracle spec.address spec.count with
      | ReadOutcome.failure => Except.error 500
      | ReadOutcome.success regs =>
        telemetryLoop oracle rest (dictInsert acc m (fieldValue spec regs))

/-- The all-fields loop of get_telemetry (driver.py lines 176-181), taken
when no metrics were requested: iterate every TELEMETRY_MAP entry. -/
def telemetryAll (oracle : Nat → Nat → ReadOutcome) :
    List (String × RegSpec) → List (String × Option ℚ) → Except Nat (List (String × Option ℚ))
  | [], acc => Except.ok acc
  | (key, spec) :: rest, acc =>
    match oracle spec.address spec.count with
    | ReadOutcome.failure => Except.error 500
    | ReadOutcome.success regs =>
      telemetryAll oracle rest (dictInsert acc key (fieldValue spec regs))

/-- Embeds the GET /telemetry handler get_telemetry (driver.py lines
159-184): an empty (or absent) metrics list is falsy and selects the
all-fields branch, otherwise the requested metrics are processed in
order; the result is the assembled dict, or the HTTP status of the error
raised when some read failed. -/
def get_telemetry (oracle : Nat → Nat → ReadOutcome) (metrics : List String) :
    Except Nat (List (String × Option ℚ)) :=
  if metrics.isEmpty then telemetryAll oracle TELEMETRY_MAP []
  else telemetryLoop oracle metrics []

/-- A transport oracle on which every read succeeds with registers
[0, 0]. -/
def allZeroOracle : Nat → Nat → ReadOutcome := fun _ _ => ReadOutcome.success [0, 0]

/-- A transport oracle on which only the read at address 32082 (the
reactive_power field) fails; every other read succeeds. -/
def failAt32082 : Nat → Nat → ReadOutcome :=
  fun address _ => if address = 32082 then ReadOutcome.failure else ReadOutcome.success [0, 0]

/-- A transport oracle on which only the read at address 32080 (the
active_power field) fails; every other read succeeds. -/
def failAt32080 : Nat → Nat → ReadOutcome :=
  fun address _ => if address = 32080 then ReadOutcome.failure else ReadOutcome.success [0, 0]

/-- One entry of the results list built by the PUT /control handler:
either {"name": name, "status": "ok"} or {"name": name, "status":
"error", "message": message}. -/
inductive CtlResult where
  | okResult (name : String)
  | errorResult (name : String) (message : String)
deriving DecidableEq

/-- Embeds the PUT /control handler control_device (driver.py lines
186-203). Commands are (name, value) pairs; a name absent from
CONTROL_MAP yields an error entry and the loop continues without any
transport call; a known name is encoded with build_int32_registers and
written through ModbusTCPClient.write_registers, whose wire operation is
recorded in the second component (in wire order); a write error raises
and the surrounding handler turns it into HTTP 500, discarding the
results list. The write oracle maps (address, registers) to success. -/
def control_device (writeOracle : Nat → List Nat → Bool) :
    List (String × Int) → Except Nat (List CtlResult) × List WireWrite
  | [] => (Except.ok [], [])
  | (name, value) :: rest =>
    match CONTROL_MAP.lookup name with
    | none =>
      let r := control_device writeOracle rest
      (Except.map (fun rs => CtlResult.errorResult name "Unknown command" :: rs) r.1, r.2)
    | some spec =>
      let regs := build_int32_registers value
      if writeOracle spec.address regs then
        let r := control_device writeOracle rest
        (Except.map (fun rs => CtlResult.okResult name :: rs) r.1,
          write_registers_op spec.address regs :: r.2)
      else (Except.error 500, [write_registers_op spec.address regs])

/-- Pack a register list into bytes, most significant byte of each
16-bit word first: the join of struct.pack big-endian uint16 over the
registers (driver.py line 78). Registers are assumed below 2^16, where
the source would raise struct.error. -/
def packBE (registers : List Nat) : List Nat :=
  registers.foldr (fun r acc => r / 256 :: r % 256 :: acc) []

/-- Whether a byte is a UTF-8 continuation byte (0x80 to 0xBF). -/
def isCont (b : Nat) : Bool := decide (128 ≤ b ∧ b ≤ 191)

/-- Whether byte b2 may follow the leading byte b of a three-byte UTF-8
sequence (excluding overlong and surrogate encodings). -/
def validB2of3 (b b2 : Nat) : Bool :=
  if b = 224 then decide (160 ≤ b2 ∧ b2 ≤ 191)
  else if b = 237 then decide (128 ≤ b2 ∧ b2 ≤ 159)
  else isCont b2

/-- Whether byte b2 may follow the leading byte b of a four-byte UTF-8
sequence (excluding overlong and beyond-U+10FFFF encodings). -/
def validB2of4 (b b2 : Nat) : Bool :=
  if b = 240 then decide (144 ≤ b2 ∧ b2 ≤ 191)
  else if b = 244 then decide (128 ≤ b2 ∧ b2 ≤ 143)
  else isCont b2

/-- The recursion of utf8DecodeIgnore, structured on a fuel counter:
every iteration consumes at least one byte, so a fuel equal to the byte
count never runs out before the input is exhausted. -/
def utf8go : Nat → List Nat → List Nat
  | 0, _ => []
  | _ + 1, [] => []
  | fuel + 1, b :: rest =>
    if b ≤ 127 then b :: utf8go fuel rest
    else if 194 ≤ b ∧ b ≤ 223 then
      match rest with
      | [] => []
      | b2 :: rest2 =>
        if isCont b2 then ((b - 192) * 64 + (b2 - 128)) :: utf8go fuel rest2
        else utf8go fuel rest
    else if 224 ≤ b ∧ b ≤ 239 then
      match rest with
      | [] => []
      | b2 :: rest2 =>
        if validB2of3 b b2 then
          match rest2 with
          | [] => []
          | b3 :: rest3 =>
            if isCont b3 then
              ((b - 224) * 4096 + (b2 - 128) * 64 + (b3 - 128)) :: utf8go fuel rest3
            else utf8go fuel rest2
        else utf8go fuel rest
    else if 240 ≤ b ∧ b ≤ 244 then
      match rest with
      | [] => []
      | b2 :: rest2 =>
        if validB2of4 b b2 then
          match rest2 with
          | [] => []
          | b3 :: rest3 =>
            if isCont b3 then
              match rest3 with
              | [] => []
              | b4 :: rest4 =>
                if isCont b4 then
                  ((b - 240) * 262144 + (b2 - 128) * 4096 + (b3 - 128) * 64 + (b4 - 128)) ::
                    utf8go fuel rest4
                else utf8go fuel rest3
            else utf8go fuel rest2
        else utf8go fuel rest
    else utf8go fuel rest

/-- Models the Python bytes.decode call with encoding utf-8 and
errors=ignore (driver.py line 80): decode UTF-8 sequences into code
points, skip the maximal invalid subpart when a sequence is invalid (the
CPython ignore error handler), and drop a truncated sequence at the end
of the input. -/
def utf8DecodeIgnore (bytes : List Nat) : List Nat :=
  utf8go bytes.length bytes

/-- The code points removed by Python str.strip with no arguments:
Unicode whitespace. -/
def pyIsSpace (c : Nat) : Bool :=
  decide (c = 9 ∨ c = 10 ∨ c = 11 ∨ c = 12 ∨ c = 13 ∨ c = 28 ∨ c = 29 ∨ c = 30 ∨ c = 31 ∨
    c = 32 ∨ c = 133 ∨ c = 160 ∨ c = 5760 ∨ (8192 ≤ c ∧ c ≤ 8202) ∨ c = 8232 ∨ c = 8233 ∨
    c = 8239 ∨ c = 8287 ∨ c = 12288)

/-- Models Python str.strip with no arguments: remove every leading and
trailing whitespace code point. -/
def pythonStrip (l : List Nat) : List Nat :=
  ((l.dropWhile pyIsSpace).reverse.dropWhile pyIsSpace).reverse

/-- Embeds parse_string_registers (driver.py lines 76-80): pack the
registers big-endian into bytes, decode them as UTF-8 dropping invalid
bytes, remove every NUL code point (the str.replace of the NUL character
by the empty string), and strip surrounding whitespace. The resulting
Python string is represented by its list of code points. -/
def parse_string_registers (registers : List Nat) : List Nat :=
  pythonStrip ((utf8DecodeIgnore (packBE registers)).filter fun c => c != 0)

/-- Decidable check that a decoded string has no NUL code point, no
leading whitespace and no trailing whitespace. -/
def stripOkB (l : List Nat) : Bool :=
  !(l.contains 0) && l.head?.all (fun a => !pyIsSpace a) && l.getLast?.all (fun a => !pyIsSpace a)

/-- Rounding an integer changes nothing. -/
lemma roundHalfEven_intCast (n : ℤ) : roundHalfEven ((n : ℚ)) = n := by
  simp [roundHalfEven, Rat.floor_def', Rat.num_intCast, Rat.den_intCast]

/-- Evaluation rule for round3 when the input times 1000 is an integer. -/
lemma round3_eq_of_mul (q : ℚ) (m : ℤ) (h : q * 1000 = (m : ℚ)) :
    round3 q = (m : ℚ) / 1000 := by
  rw [round3, h, roundHalfEven_intCast]

/-- Rounding to the nearest integer moves the value by at most one half. -/
lemma abs_roundHalfEven_sub (x : ℚ) : |(roundHalfEven x : ℚ) - x| ≤ 1 / 2 := by
  have hdpos : (0 : ℤ) < (x.den : ℤ) := by exact_mod_cast x.pos
  have hrmod : x.num - x.floor * (x.den : ℤ) = x.num % (x.den : ℤ) := by
    rw [Rat.floor_def', Int.emod_def]
    ring
  have hr0 : 0 ≤ x.num - x.floor * (x.den : ℤ) := by
    rw [hrmod]; exact Int.emod_nonneg _ (ne_of_gt hdpos)
  have hrd : x.num - x.floor * (x.den : ℤ) < (x.den : ℤ) := by
    rw [hrmod]; exact Int.emod_lt_of_pos _ hdpos
  have hdq : (0 : ℚ) < (x.den : ℚ) := by exact_mod_cast x.pos
  have hxn : x * (x.den : ℚ) = (x.num : ℚ) := by
    have h := Rat.num_div_den x
    rw [div_eq_iff (ne_of_gt hdq)] at h
    linarith [h]
  have hq : x - (x.floor : ℚ) = ((x.num - x.floor * (x.den : ℤ) : ℤ) : ℚ) / (x.den : ℚ) := by
    rw [eq_div_iff (ne_of_gt hdq)]
    push_cast
    linear_combination hxn
  have hr0q : (0 : ℚ) ≤ ((x.num - x.floor * (x.den : ℤ) : ℤ) : ℚ) := by exact_mod_cast hr0
  have hrdq : ((x.num - x.floor * (x.den : ℤ) : ℤ) : ℚ) < (x.den : ℚ) := by exact_mod_cast hrd
  have hfr0 : (0 : ℚ) ≤ ((x.num - x.floor * (x.den : ℤ) : ℤ) : ℚ) / (x.den : ℚ) :=
    div_nonneg hr0q (le_of_lt hdq)
  have hfr1 : ((x.num - x.floor * (x.den : ℤ) : ℤ) : ℚ) / (x.den : ℚ) < 1 :=
    (div_lt_one hdq).mpr hrdq
  unfold roundHalfEven
  split_ifs with h1 h2 h3
  · have h1q : 2 * ((x.num - x.floor * (x.den : ℤ) : ℤ) : ℚ) < (x.den : ℚ) := by
      exact_mod_cast h1
    have : ((x.num - x.floor * (x.den : ℤ) : ℤ) : ℚ) / (x.den : ℚ) < 1 / 2 := by
      rw [div_lt_iff₀ hdq]
      linarith
    rw [abs_le]
    constructor <;> linarith [hq, hfr0]
  · have h2q : (x.den : ℚ) < 2 * ((x.num - x.floor * (x.den : ℤ) : ℤ) : ℚ) := by
      exact_mod_cast h2
    have : (1 : ℚ) / 2 < ((x.num - x.floor * (x.den : ℤ) : ℤ) : ℚ) / (x.den : ℚ) := by
      rw [div_lt_div_iff₀ (by norm_num) hdq]
      linarith
    rw [abs_le]
    push_cast
    constructor <;> linarith [hq, hfr1]
  · have heq : 2 * (x.num - x.floor * (x.den : ℤ)) = (x.den : ℤ) := by omega
    have heqq : 2 * ((x.num - x.floor * (x.den : ℤ) : ℤ) : ℚ) = (x.den : ℚ) := by
      exact_mod_cast heq
    have : ((x.num - x.floor * (x.den : ℤ) : ℤ) : ℚ) / (x.den : ℚ) = 1 / 2 := by
      rw [div_eq_iff (ne_of_gt hdq)]
      linarith
    rw [abs_le]
    constructor <;> linarith [hq]
  · have heq : 2 * (x.num - x.floor * (x.den : ℤ)) = (x.den : ℤ) := by omega
    have heqq : 2 * ((x.num - x.floor * (x.den : ℤ) : ℤ) : ℚ) = (x.den : ℚ) := by
      exact_mod_cast heq
    have : ((x.num - x.floor * (x.den : ℤ) : ℤ) : ℚ) / (x.den : ℚ) = 1 / 2 := by
      rw [div_eq_iff (ne_of_gt hdq)]
      linarith
    rw [abs_le]
    push_cast
    constructor <;> linarith [hq]

/-- A head surviving dropWhile falsifies the predicate. -/
lemma head?_dropWhile_not (p : Nat → Bool) (l : List Nat) (a : Nat)
    (h : (l.dropWhile p).head? = some a) : p a = false := by
  induction l with
  | nil => simp [List.dropWhile] at h
  | cons b bs ih =>
    cases hb : p b with
    | true =>
      rw [List.dropWhile, hb] at h
      exact ih h
    | false =>
      rw [List.dropWhile, hb] at h
      simp at h
      rw [← h, hb]

/-- dropWhile keeps the last element when its result is non-empty. -/
lemma getLast?_dropWhile_ne_nil (p : Nat → Bool) (l : List Nat)
    (h : l.dropWhile p ≠ []) : (l.dropWhile p).getLast? = l.getLast? := by
  induction l with
  | nil => simp [List.dropWhile] at h
  | cons b bs ih =>
    cases hb : p b with
    | true =>
      rw [List.dropWhile, hb] at h ⊢
      have hbs : bs ≠ [] := by
        intro he
        rw [he] at h
        simp [List.dropWhile] at h
      rw [ih h]
      match bs, hbs with
      | c :: cs, _ => rw [List.getLast?_cons_cons]
    | false =>
      rw [List.dropWhile, hb]

/-- Stripping only removes elements. -/
lemma mem_pythonStrip (a : Nat) (l : List Nat) (h : a ∈ pythonStrip l) : a ∈ l := by
  unfold pythonStrip at h
  rw [List.mem_reverse] at h
  have h2 := (List.dropWhile_sublist pyIsSpace).subset h
  rw [List.mem_reverse] at h2
  exact (List.dropWhile_sublist pyIsSpace).subset h2

/-- Stripping a NUL-free list yields a NUL-free list with no surrounding
whitespace. -/
lemma stripOkB_pythonStrip (l : List Nat) (hn : (0 : Nat) ∉ l) :
    stripOkB (pythonStrip l) = true := by
  unfold stripOkB
  refine Bool.and_eq_true_iff.mpr ⟨Bool.and_eq_true_iff.mpr ⟨?_, ?_⟩, ?_⟩
  · rw [Bool.not_eq_eq_eq_not, Bool.not_true]
    simp only [List.contains_eq_any_beq, List.any_eq_false]
    intro x hx
    simp only [beq_iff_eq]
    intro he
    rw [← he] at hx
    exact hn (mem_pythonStrip 0 l hx)
  · cases hh : (pythonStrip l).head? with
    | none => rfl
    | some a =>
      simp only [Option.all_some]
      unfold pythonStrip at hh
      rw [List.head?_reverse] at hh
      have hne : (l.dropWhile pyIsSpace).reverse.dropWhile pyIsSpace ≠ [] := by
        intro he
        rw [he] at hh
        simp at hh
      rw [getLast?_dropWhile_ne_nil _ _ hne, List.getLast?_reverse] at hh
      rw [head?_dropWhile_not _ _ _ hh]
      rfl
  · cases hh : (pythonStrip l).getLast? with
    | none => rfl
    | some a =>
      simp only [Option.all_some]
      unfold pythonStrip at hh
      rw [List.getLast?_reverse] at hh
      rw [head?_dropWhile_not _ _ _ hh]
      rfl

/-- Keys present after a Python dict assignment: the inserted key plus
the previous keys. -/
lemma hasKey_dictInsert {α : Type} (d : List (String × α)) (k k' : String) (v : α) :
    hasKey (dictInsert d k v) k' ↔ (k' = k ∨ hasKey d k') := by
  unfold dictInsert hasKey
  split_ifs with h
  · have hkeys : ((d.map fun p => if p.1 == k then (k, v) else p).map Prod.fst) =
        d.map Prod.fst := by
      rw [List.map_map]
      apply List.map_congr_left
      intro p _
      by_cases hp : p.1 = k
      · simp [hp]
      · simp [hp]
    rw [hkeys]
    constructor
    · exact Or.inr
    · rintro (rfl | h')
      · rcases List.any_eq_true.mp h with ⟨p, hp, hpk⟩
        have hpe : p.1 = k' := by simpa using hpk
        exact hpe ▸ List.mem_map.mpr ⟨p, hp, rfl⟩
      · exact h'
  · rw [List.map_append]
    rw [List.mem_append]
    simp only [List.map_cons, List.map_nil, List.mem_singleton]
    tauto

/-- Keys of a successful telemetry loop result: the keys of the
accumulator plus the requested metrics known to the schema. -/
lemma telemetryLoop_keys (oracle : Nat → Nat → ReadOutcome) (name : String) :
    ∀ (metrics : List String) (acc res : List (String × Option ℚ)),
      telemetryLoop oracle metrics acc = Except.ok res →
      (hasKey res name ↔
        (hasKey acc name ∨ (name ∈ metrics ∧ (TELEMETRY_MAP.lookup name).isSome))) := by
  intro metrics
  induction metrics with
  | nil =>
    intro acc res h
    rw [telemetryLoop] at h
    injection h with h
    subst h
    simp
  | cons m0 rest ih =>
    intro acc res h
    cases hcase : TELEMETRY_MAP.lookup m0 with
    | none =>
      simp only [telemetryLoop, hcase] at h
      rw [ih acc res h]
      by_cases hnm : name = m0
      · subst hnm
        rw [hcase]
        simp
      · simp [List.mem_cons, hnm]
    | some spec0 =>
      cases hout : oracle spec0.address spec0.count with
      | failure =>
        simp only [telemetryLoop, hcase, hout] at h
        exact Except.noConfusion h
      | success regs =>
        simp only [telemetryLoop, hcase, hout] at h
        rw [ih _ res h, hasKey_dictInsert]
        by_cases hnm : name = m0
        · subst hnm
          simp only [hcase, List.mem_cons, Option.isSome_some]
          tauto
        · simp only [List.mem_cons, hnm, false_or]

/-- A failing read of any requested known metric aborts the whole
telemetry loop with HTTP 500. -/
lemma telemetryLoop_fails (oracle : Nat → Nat → ReadOutcome) (m : String) (spec : RegSpec)
    (hl : TELEMETRY_MAP.lookup m = some spec)
    (hf : oracle spec.address spec.count = ReadOutcome.failure) :
    ∀ (metrics : List String), m ∈ metrics →
      ∀ acc, telemetryLoop oracle metrics acc = Except.error 500 := by
  intro metrics
  induction metrics with
  | nil => intro hm; cases hm
  | cons m0 rest ih =>
    intro hm acc
    cases hcase : TELEMETRY_MAP.lookup m0 with
    | none =>
      simp only [telemetryLoop, hcase]
      rcases List.mem_cons.mp hm with he | hr
      · subst he; rw [hcase] at hl; cases hl
      · exact ih hr acc
    | some spec0 =>
      cases hout : oracle spec0.address spec0.count with
      | failure => simp only [telemetryLoop, hcase, hout]
      | success regs =>
        simp only [telemetryLoop, hcase, hout]
        rcases List.mem_cons.mp hm with he | hr
        · subst he
          rw [hcase] at hl
          injection hl with he2
          subst he2
          rw [hout] at hf
          cases hf
        · exact ih hr _

/-- Claim C1: for every in-range signed 32-bit integer v, decoding the
encoder output returns v: parse_int32_registers (build_int32_registers v)
equals some v. -/
theorem int32_roundtrip (v : Int) (h1 : -2147483648 ≤ v) (h2 : v < 2147483648) :
    parse_int32_registers (build_int32_registers v) = some v := by
  unfold parse_int32_registers build_int32_registers
  simp only [Option.some.injEq]
  unfold toSigned32
  split <;> omega

/-- Witness for C1 at the concrete input v = -5. -/
theorem int32_roundtrip_witness :
    parse_int32_registers (build_int32_registers (-5)) = some (-5) :=
  int32_roundtrip (-5) (by decide) (by decide)

/-- Claim C6: for every pair of 16-bit words [w0, w1], Int32 decoding takes
w0 as the high 16 bits and w1 as the low 16 bits and interprets the 32-bit
pattern as twos-complement: the decoded value v is congruent to
w0 * 2^16 + w1 modulo 2^32 and lies in [-2^31, 2^31). -/
theorem int32_decode_twos_complement (w0 w1 : Nat) (h0 : w0 < 65536) (h1 : w1 < 65536) :
    ∃ v : Int, parse_int32_registers [w0, w1] = some v ∧
      v % 4294967296 = ((w0 * 65536 + w1 : Nat) : Int) ∧
      -2147483648 ≤ v ∧ v < 2147483648 := by
  refine ⟨toSigned32 (w0 * 65536 + w1), rfl, ?_, ?_, ?_⟩ <;>
    · unfold toSigned32
      split <;> omega

/-- Witness for C6 at the concrete words w0 = 65535, w1 = 65535 (which
decode to -1). -/
theorem int32_decode_twos_complement_witness :
    ∃ v : Int, parse_int32_registers [65535, 65535] = some v ∧
      v % 4294967296 = ((65535 * 65536 + 65535 : Nat) : Int) ∧
      -2147483648 ≤ v ∧ v < 2147483648 :=
  int32_decode_twos_complement 65535 65535 (by decide) (by decide)

/-- Counterexample to claim C2: on a transport whose first attempt fails
and whose every later attempt would succeed, the read raises a Modbus
read error (HTTP 502) after a single transport attempt: no retry, no
backoff, and no Exhausted outcome exist in the code. -/
theorem read_retry_counterexample :
    read_holding_registers failThenGood = (Except.error 502, 1) := rfl

/-- Claim C2 as amended: every logical read performs exactly one transport
attempt, and when that attempt fails the read returns a Modbus read error
with HTTP status 502 (there is no retry loop, no backoff and no
TransportError Exhausted in the source). -/
theorem read_single_attempt (transport : Nat → ReadOutcome) :
    (read_holding_registers transport).2 = 1 ∧
      (transport 0 = ReadOutcome.failure →
        (read_holding_registers transport).1 = Except.error 502) := by
  unfold read_holding_registers
  constructor
  · split <;> rfl
  · intro h
    rw [h]

/-- Witness for the amended claim C2 at the all-failing transport. -/
theorem read_single_attempt_witness :
    (read_holding_registers allFailTransport).1 = Except.error 502 ∧
      (read_holding_registers allFailTransport).2 = 1 :=
  ⟨(read_single_attempt allFailTransport).2 rfl, (read_single_attempt allFailTransport).1⟩

/-- Claim C7: a write of a non-empty value sequence issues a
single-register wire operation exactly when the sequence has length 1 and
a multi-register wire operation otherwise, and those two operations are
distinct. -/
theorem write_dispatch_by_length (address : Nat) (values : List Nat) (h : values ≠ []) :
    (values.length = 1 →
      ∃ v, values = [v] ∧ write_registers_op address values = WireWrite.single address v) ∧
    (values.length ≠ 1 → write_registers_op address values = WireWrite.multiple address values) ∧
    (∀ a v a2 vs, WireWrite.single a v ≠ WireWrite.multiple a2 vs) := by
  refine ⟨?_, ?_, ?_⟩
  · intro hlen
    match values with
    | [v] => exact ⟨v, rfl, rfl⟩
    | [] => exact absurd rfl h
    | _ :: _ :: _ => simp at hlen
  · intro hlen
    match values with
    | [v] => exact absurd rfl hlen
    | [] => exact absurd rfl h
    | _ :: _ :: _ => rfl
  · intro a v a2 vs hcontra
    exact WireWrite.noConfusion hcontra

/-- Witness for C7: a one-element write goes out as a single-register
operation and a two-element write as a multi-register operation. -/
theorem write_dispatch_by_length_witness :
    (∃ v, ([5] : List Nat) = [v] ∧ write_registers_op 42000 [5] = WireWrite.single 42000 v) ∧
      write_registers_op 42000 [5, 6] = WireWrite.multiple 42000 [5, 6] :=
  ⟨(write_dispatch_by_length 42000 [5] (by decide)).1 (by decide),
    (write_dispatch_by_length 42000 [5, 6] (by decide)).2.1 (by decide)⟩

/-- Counterexample to claim C3: with a transport on which only the
reactive_power read (address 32082) fails while every other read
succeeds, the batch read of active_power and reactive_power fails as a
whole with HTTP 500 instead of returning active_power with the failed
field marked. -/
theorem telemetry_batch_counterexample :
    get_telemetry failAt32082 ["active_power", "reactive_power"] = Except.error 500 := rfl

/-- Claim C3 as amended: when any requested known field read fails
during a batch read, the whole batch fails with HTTP 500; no per-field
error marking takes place and no other field is returned. -/
theorem telemetry_batch_fails_whole (oracle : Nat → Nat → ReadOutcome) (metrics : List String)
    (m : String) (spec : RegSpec) (hm : m ∈ metrics)
    (hl : TELEMETRY_MAP.lookup m = some spec)
    (hf : oracle spec.address spec.count = ReadOutcome.failure) :
    get_telemetry oracle metrics = Except.error 500 := by
  have hne : metrics.isEmpty = false := by
    cases metrics with
    | nil => cases hm
    | cons a l => rfl
  rw [get_telemetry, hne]
  exact telemetryLoop_fails oracle m spec hl hf metrics hm []

/-- Witness for the amended claim C3: a batch consisting of the single
field active_power fails with HTTP 500 when its read fails. -/
theorem telemetry_batch_fails_whole_witness :
    get_telemetry failAt32080 ["active_power"] = Except.error 500 :=
  telemetry_batch_fails_whole failAt32080 ["active_power"] "active_power"
    (RegSpec.mk 32080 2 (1 / 100)) (by decide) rfl rfl

/-- Claim C4: a batch read over a non-empty requested name list yields a
result whose keys are exactly the requested names known to the schema;
an unknown requested name produces no entry and no error. -/
theorem telemetry_unknown_names_skipped (oracle : Nat → Nat → ReadOutcome)
    (metrics : List String) (res : List (String × Option ℚ)) (name : String)
    (hne : metrics ≠ []) (hok : get_telemetry oracle metrics = Except.ok res) :
    hasKey res name ↔ (name ∈ metrics ∧ (TELEMETRY_MAP.lookup name).isSome) := by
  have hne2 : metrics.isEmpty = false := by
    cases metrics with
    | nil => exact absurd rfl hne
    | cons a l => rfl
  rw [get_telemetry, hne2] at hok
  have h := telemetryLoop_keys oracle name metrics [] res hok
  rw [h]
  simp [hasKey]

/-- Witness for C4: requesting active_power and bogus_field on an
all-success transport yields a result containing active_power only. -/
theorem telemetry_unknown_names_skipped_witness :
    hasKey [("active_power", fieldValue (RegSpec.mk 32080 2 (1 / 100)) [0, 0])] "active_power" ∧
      ¬ hasKey [("active_power", fieldValue (RegSpec.mk 32080 2 (1 / 100)) [0, 0])]
        "bogus_field" := by
  constructor
  · exact (telemetry_unknown_names_skipped allZeroOracle ["active_power", "bogus_field"]
      [("active_power", fieldValue (RegSpec.mk 32080 2 (1 / 100)) [0, 0])] "active_power"
      (by decide) rfl).mpr ⟨by decide, by decide⟩
  · intro hk
    have h := (telemetry_unknown_names_skipped allZeroOracle ["active_power", "bogus_field"]
      [("active_power", fieldValue (RegSpec.mk 32080 2 (1 / 100)) [0, 0])] "bogus_field"
      (by decide) rfl).mp hk
    exact absurd h.2 (by decide)

/-- Claim C9: writing to a field name absent from the control schema
(unknown, or known but not writable and hence not in CONTROL_MAP)
produces an error result for that command and performs no wire
operation. -/
theorem control_unknown_no_wire (w : Nat → List Nat → Bool) (name : String) (value : ℤ)
    (hu : CONTROL_MAP.lookup name = none) :
    control_device w [(name, value)] =
      (Except.ok [CtlResult.errorResult name "Unknown command"], []) := by
  simp only [control_device, hu]
  rfl

/-- Witness for C9: active_power is a readable telemetry field that is
not writable (absent from CONTROL_MAP); writing it yields an error entry
and the transport write list stays empty. -/
theorem control_unknown_no_wire_witness :
    control_device (fun _ _ => true) [("active_power", 5000)] =
      (Except.ok [CtlResult.errorResult "active_power" "Unknown command"], []) :=
  control_unknown_no_wire (fun _ _ => true) "active_power" 5000 rfl

/-- Claim C10: every successfully decoded telemetry field value equals
the decoded int32 times the scale of the field, rounded to 3 decimal
places: the result is an integer multiple of 1/1000 and within 1/2000 of
the unrounded product, so precision below 10^-3 is discarded. -/
theorem telemetry_scale_round (spec : RegSpec) (registers : List Nat) (v : ℤ)
    (h : parse_int32_registers registers = some v) :
    fieldValue spec registers = some (round3 ((v : ℚ) * spec.scale)) ∧
      (∃ n : ℤ, round3 ((v : ℚ) * spec.scale) = (n : ℚ) / 1000) ∧
      |round3 ((v : ℚ) * spec.scale) - (v : ℚ) * spec.scale| ≤ 1 / 2000 := by
  refine ⟨?_, ⟨roundHalfEven ((v : ℚ) * spec.scale * 1000), rfl⟩, ?_⟩
  · rw [fieldValue, h]
    rfl
  · have hb := abs_roundHalfEven_sub ((v : ℚ) * spec.scale * 1000)
    rw [round3]
    have he : (roundHalfEven ((v : ℚ) * spec.scale * 1000) : ℚ) / 1000 - (v : ℚ) * spec.scale =
        ((roundHalfEven ((v : ℚ) * spec.scale * 1000) : ℚ) - (v : ℚ) * spec.scale * 1000) /
          1000 := by
      ring
    rw [he, abs_div]
    have h1000 : |(1000 : ℚ)| = 1000 := abs_of_pos (by norm_num)
    rw [h1000, div_le_iff₀ (by norm_num : (0 : ℚ) < 1000)]
    linarith [hb]

/-- Witness for C10 at the concrete raw value 1250 with scale 1/100: the
field value is 12.5. -/
theorem telemetry_scale_round_witness :
    fieldValue (RegSpec.mk 32080 2 (1 / 100)) [0, 1250] =
        some (round3 (((1250 : ℤ) : ℚ) * (RegSpec.mk 32080 2 (1 / 100)).scale)) ∧
      round3 (((1250 : ℤ) : ℚ) * (RegSpec.mk 32080 2 (1 / 100)).scale) = 25 / 2 := by
  constructor
  · exact (telemetry_scale_round (RegSpec.mk 32080 2 (1 / 100)) [0, 1250] 1250 rfl).1
  · have hm : ((1250 : ℤ) : ℚ) * (RegSpec.mk 32080 2 (1 / 100)).scale * 1000 =
        ((12500 : ℤ) : ℚ) := by
      show ((1250 : ℤ) : ℚ) * (1 / 100) * 1000 = ((12500 : ℤ) : ℚ)
      push_cast
      norm_num
    rw [round3_eq_of_mul _ _ hm]
    norm_num

/-- Claim C5: for every word sequence, String decoding packs the words
big-endian into bytes, removes every NUL code point (in particular all
trailing NULs, however many), strips surrounding whitespace, and drops
invalid bytes instead of raising: the result never contains a NUL and is
never surrounded by whitespace, the words of SUN2000 followed by three
NUL bytes decode to SUN2000, a padded string is stripped of its
surrounding spaces, and an invalid 0xFF byte is dropped. -/
theorem string_decode_stripped :
    (∀ registers : List Nat, stripOkB (parse_string_registers registers) = true) ∧
      parse_string_registers [21333, 20018, 12336, 12288, 0] = [83, 85, 78, 50, 48, 48, 48] ∧
      parse_string_registers [8275, 21838, 8192] = [83, 85, 78] ∧
      parse_string_registers [16895, 16896] = [65, 66] := by
  refine ⟨?_, by decide, by decide, by decide⟩
  intro registers
  apply stripOkB_pythonStrip
  intro hmem
  rw [List.mem_filter] at hmem
  simp at hmem
